import Mathlib

/-!
# Verification of the Sportaki TV week converter's parsing core

Shallow embedding of `src/sportaki_tv_week_converter.py`: the keyword
classifier (`infer_sport` over `SPORT_KEYWORDS`), the line-oriented schedule
parser (`parse_input` with its `TIME_RE` / `DATE_RE` patterns, lookahead
`next_nonempty`, year-rollover heuristic and per-day stable sort), and the
string helpers they use (`normalize_spaces`, Python `str.strip`,
`str.lower`, `str.splitlines`).

Machine integers do not occur (Python ints are unbounded; all values here
are small `Nat`s).  Python's stable `list.sort` is modelled by Mathlib's
`List.insertionSort`, which is also stable; the output of a stable sort is
uniquely determined by the input order and the key, so the two agree.

Model notes (restrictions of the Unicode surface, each marked at its
definition): `\s`, `str.strip` and `str.splitlines` are modelled over the
ASCII whitespace/terminator repertoire (Python additionally treats some
rare Unicode whitespace and the terminators `\x1c`-`\x1e`, `\x85`,
`\u2028`, `\u2029`); the regex `\d` and `int` are modelled over ASCII
digits (Python also accepts other Unicode digit scripts); `str.lower` is
modelled over ASCII and Greek.  `athens_now().year` (real time) is the
explicit `base_year` parameter.
-/

namespace Sportaki

/-- Models Python `str.lower` character-wise for the character repertoire the
converter works with: ASCII letters and the Greek block (uppercase `Α`..`Ϋ`
and the accented capitals `Ά Έ Ή Ί Ό Ύ Ώ`).  Other characters are unchanged,
as in CPython's simple lowercase mapping for non-cased characters. -/
def pyLowerChar (c : Char) : Char :=
  if 65 ≤ c.toNat ∧ c.toNat ≤ 90 then Char.ofNat (c.toNat + 32)
  else if 0x391 ≤ c.toNat ∧ c.toNat ≤ 0x3A1 then Char.ofNat (c.toNat + 32)
  else if 0x3A3 ≤ c.toNat ∧ c.toNat ≤ 0x3AB then Char.ofNat (c.toNat + 32)
  else if c.toNat = 0x386 then Char.ofNat 0x3AC
  else if 0x388 ≤ c.toNat ∧ c.toNat ≤ 0x38A then Char.ofNat (c.toNat + 0x25)
  else if c.toNat = 0x38C then Char.ofNat 0x3CC
  else if 0x38E ≤ c.toNat ∧ c.toNat ≤ 0x38F then Char.ofNat (c.toNat + 0x3F)
  else c

/-- Python `str.lower`. -/
def pyLower (s : String) : String := ⟨s.data.map pyLowerChar⟩

/-- The whitespace class of Python's `str.strip()` and the regex `\s`
(ASCII part: space, tab, newline, vertical tab, form feed, carriage
return). -/
def isPySpace (c : Char) : Bool :=
  c == ' ' || c == '\t' || c == '\n' || c == '\x0b' || c == '\x0c' || c == '\r'

/-- Python `str.strip()` on a character list. -/
def stripL (l : List Char) : List Char :=
  ((l.dropWhile isPySpace).reverse.dropWhile isPySpace).reverse

/-- Python `str.strip()`. -/
def pyStrip (s : String) : String := ⟨stripL s.data⟩

/-- The effect of `re.sub(r"\s+", " ", ·)`: every maximal run of whitespace
becomes a single space. -/
def squeezeSpaces : List Char → List Char
  | [] => []
  | [c] => [if isPySpace c then ' ' else c]
  | c :: d :: rest =>
    if isPySpace c && isPySpace d then squeezeSpaces (d :: rest)
    else (if isPySpace c then ' ' else c) :: squeezeSpaces (d :: rest)

/-- `normalize_spaces` (line 71): `re.sub(r"\s+", " ", s.strip())`. -/
def normalize_spaces (s : String) : String := ⟨squeezeSpaces (stripL s.data)⟩

/-- Substring search on character lists: does `needle` occur contiguously? -/
def containsSubAux (needle : List Char) : List Char → Bool
  | [] => needle.isEmpty
  | c :: rest => needle.isPrefixOf (c :: rest) || containsSubAux needle rest

/-- Python's substring test `needle in hay` on strings. -/
def containsSub (hay needle : String) : Bool := containsSubAux needle.data hay.data

/-- `SPORT_LINE_SET` (line 22): the closed set of explicit category lines.
The Python set is used only for membership tests, so a list is a faithful
model. -/
def SPORT_LINE_SET : List String :=
  ["Ποδόσφαιρο", "Μπάσκετ", "Τένις", "Βόλεϊ", "Χάντμπολ",
   "Αμερικανικό Ποδόσφαιρο", "American Football", "Εκπομπή"]

/-- `SPORT_KEYWORDS` (line 28): the ordered category → keywords table. -/
def SPORT_KEYWORDS : List (String × List String) :=
  [("Τένις",
    ["ATP", "WTA", "United Cup", "Grand Slam", "Challenger", "ITF", "Davis Cup",
     "Billie Jean King"]),
   ("Βόλεϊ",
    ["Volley", "CEV", "Volleyball", "Challenge Cup", "Champions League", "CEV Cup",
     "Volley League"]),
   ("Μπάσκετ",
    ["NBA", "Euroleague", "EuroLeague", "Eurocup", "EuroCup",
     "ACB", "GBL", "Basket", "FIBA", "BCL", "Stoiximan GBL", "Lega Basket"]),
   ("Ποδόσφαιρο",
    ["Super League", "Premier League", "La Liga", "Serie A", "Bundesliga", "Ligue",
     "FA Cup", "Coppa Italia", "Conference League", "Europa", "Champions League",
     "Eredivisie", "Liga Portugal", "Cup", "Κύπελλο", "Λιγκ Καπ", "League Cup",
     "Saudi", "Roshn", "Cyprus League"]),
   ("Αμερικανικό Ποδόσφαιρο",
    ["NFL", "American Football", "Steelers", "Texans", "Playoffs"]),
   ("Χάντμπολ",
    ["Χάντμπολ", "Handball", "Ευρωπαϊκό Πρωτάθλημα Ανδρών"]),
   ("Εκπομπή",
    ["Εκπομπή", "Show", "Pre Game", "Post Game", "Sportshow", "Playmakers",
     "Monday Football Club", "Matchday Live", "Minute by Minute", "OnlyFacts",
     "BIG 4", "Box2Box", "Game Night", "Give And Go", "MIND Game", "Pelota",
     "Pick n", "On Fire"])]

/-- The nested loops of `infer_sport` (lines 76-79): return the category of
the first table entry some keyword of which occurs (case-insensitively) in
the haystack, or `""` when none does. -/
def firstMatchingSport (hay : String) : List (String × List String) → String
  | [] => ""
  | (sport, keys) :: rest =>
    if keys.any (fun k => containsSub (pyLower hay) (pyLower k)) then sport
    else firstMatchingSport hay rest

/-- `infer_sport` (line 74): haystack is `f"{channel} {match} {comp}"`. -/
def infer_sport (channel matchStr comp : String) : String :=
  firstMatchingSport (channel ++ " " ++ matchStr ++ " " ++ comp) SPORT_KEYWORDS

/-- Whether a table entry matches the haystack: some of its keywords occurs
case-insensitively (the inner loop condition of lines 77-79). -/
def entryMatches (hay : String) (entry : String × List String) : Bool :=
  entry.2.any (fun k => containsSub (pyLower hay) (pyLower k))

/-! ## Line patterns, dates and lines -/

/-- `TIME_RE` (line 18): `^\s*(?:[01]\d|2[0-3]):[0-5]\d\s*$`.  After the
surrounding `\s*` are stripped, exactly five characters remain:
`HH:MM` with `HH` in `00`-`23` and `MM` in `00`-`59`. -/
def timeMatch (s : String) : Bool :=
  match stripL s.data with
  | [h1, h2, ':', m1, m2] =>
    (((h1 == '0' || h1 == '1') && h2.isDigit) ||
      (h1 == '2' && decide ('0' ≤ h2) && decide (h2 ≤ '3'))) &&
    (decide ('0' ≤ m1) && decide (m1 ≤ '5')) && m2.isDigit
  | _ => false

/-- Numeric value of a decimal digit character. -/
def digitVal (c : Char) : Nat := c.toNat - 48

/-- `DATE_RE` (line 19): `^\s*(\d{1,2})/(\d{1,2})\s*$`, returning
`(dd, mm) = (int(group 1), int(group 2))` on success. -/
def dateMatch (s : String) : Option (Nat × Nat) :=
  match stripL s.data with
  | [a, '/', b] =>
    if a.isDigit && b.isDigit then some (digitVal a, digitVal b) else none
  | [a, b, '/', c] =>
    if a.isDigit && b.isDigit && c.isDigit then
      some (10 * digitVal a + digitVal b, digitVal c) else none
  | [a, '/', b, c] =>
    if a.isDigit && b.isDigit && c.isDigit then
      some (digitVal a, 10 * digitVal b + digitVal c) else none
  | [a, b, '/', c, d] =>
    if a.isDigit && b.isDigit && c.isDigit && d.isDigit then
      some (10 * digitVal a + digitVal b, 10 * digitVal c + digitVal d) else none
  | _ => none

/-- Gregorian leap year, as used by Python's `datetime`. -/
def isLeap (y : Nat) : Bool := y % 4 == 0 && (y % 100 != 0 || y % 400 == 0)

/-- Days in a month of the proleptic Gregorian calendar. -/
def daysInMonth (y m : Nat) : Nat :=
  if m == 2 then (if isLeap y then 29 else 28)
  else if m == 4 || m == 6 || m == 9 || m == 11 then 30
  else 31

/-- Whether `datetime(y, m, d)` (line 121) succeeds: `datetime` accepts
years `1`..`9999`, months `1`..`12` and days `1`..`daysInMonth`. -/
def isValidDate (y m d : Nat) : Bool :=
  decide (1 ≤ y) && decide (y ≤ 9999) && decide (1 ≤ m) && decide (m ≤ 12) &&
  decide (1 ≤ d) && decide (d ≤ daysInMonth y m)

/-- Decimal digits, most significant first; the first argument is fuel
(`n` itself is always enough, since `n / 10 < n` for positive `n`). -/
def natDigitsAux : Nat → Nat → List Char
  | _, 0 => []
  | 0, _ + 1 => []
  | fuel + 1, n + 1 => natDigitsAux fuel ((n + 1) / 10) ++ [Char.ofNat (48 + (n + 1) % 10)]

/-- Decimal digits of a `Nat`, most significant first. -/
def natDigits (n : Nat) : List Char := natDigitsAux n n

/-- Zero-padded decimal rendering, as `strftime` produces for `%Y`/`%m`/`%d`
in the year range the converter operates in. -/
def padNat (width n : Nat) : String :=
  let ds := if n = 0 then ['0'] else natDigits n
  ⟨List.replicate (width - ds.length) '0' ++ ds⟩

/-- `d.strftime("%Y-%m-%d")` (line 122). -/
def formatDateKey (y m d : Nat) : String :=
  padNat 4 y ++ "-" ++ padNat 2 m ++ "-" ++ padNat 2 d

/-- Python `str.splitlines` restricted to the `\n`, `\r`, `\r\n` line
terminators (a trailing terminator produces no extra empty line). -/
def splitlinesAux : List Char → List Char → List String
  | [], acc => if acc.isEmpty then [] else [⟨acc.reverse⟩]
  | '\r' :: '\n' :: rest, acc => (⟨acc.reverse⟩ : String) :: splitlinesAux rest []
  | '\r' :: rest, acc => (⟨acc.reverse⟩ : String) :: splitlinesAux rest []
  | '\n' :: rest, acc => (⟨acc.reverse⟩ : String) :: splitlinesAux rest []
  | c :: rest, acc => splitlinesAux rest (c :: acc)

/-- `text.splitlines()` (line 88). -/
def splitlines (s : String) : List String := splitlinesAux s.data []

/-- `ln.rstrip("\n")` (line 90). -/
def rstripNL (s : String) : String := ⟨(s.data.reverse.dropWhile (· == '\n')).reverse⟩

/-- The line list the parser works on (lines 88-90). -/
def linesOf (text : String) : List String := (splitlines text).map rstripNL

/-! ## The schedule structure -/

/-- `Event` (line 59).  The Python field `match` is a Lean keyword and is
rendered `matchStr`. -/
structure Event where
  date_key : String
  time : String
  channel : String
  matchStr : String
  comp : String
  sport : String
deriving DecidableEq, Repr

/-- `schedule.setdefault(key, [])` (line 123): insertion-ordered dict,
modelled as an association list; a missing key is appended with `[]`. -/
def setdefault (sched : List (String × List Event)) (key : String) :
    List (String × List Event) :=
  if sched.any (fun p => p.1 == key) then sched else sched ++ [(key, [])]

/-- `schedule.setdefault(key, []).append(ev)` (line 187). -/
def schedAppend (sched : List (String × List Event)) (key : String) (ev : Event) :
    List (String × List Event) :=
  if sched.any (fun p => p.1 == key) then
    sched.map (fun p => if p.1 == key then (p.1, p.2 ++ [ev]) else p)
  else sched ++ [(key, [ev])]

/-! ## Lookahead -/

/-- Worker for `next_nonempty`: scan a suffix of the line list, carrying the
absolute index of its head. -/
def findNonempty : List String → Nat → Option (Nat × String)
  | [], _ => none
  | l :: rest, j =>
    let s := pyStrip l
    if s = "" then findNonempty rest (j + 1) else some (j, s)

/-- `next_nonempty` (line 141): first index `≥ j` whose line is non-blank,
with its stripped content. -/
def next_nonempty (lines : List String) (j : Nat) : Option (Nat × String) :=
  findNonempty (lines.drop j) j

/-- Lines 150-154: the chained lookups `n1`, `n2`, `n3` after the time line
at index `i`, bundled; `none` exactly when Python's `not (n1 and n2 and n3)`
guard fires (when `n1` or `n2` is `None`, the fallback start `i + 1` Python
passes to the later lookups cannot change the outcome of that guard). -/
def nextThree (lines : List String) (i : Nat) :
    Option ((Nat × String) × (Nat × String) × (Nat × String)) :=
  match next_nonempty lines (i + 1) with
  | none => none
  | some n1 =>
    match next_nonempty lines (n1.1 + 1) with
    | none => none
    | some n2 =>
      match next_nonempty lines (n2.1 + 1) with
      | none => none
      | some n3 => some (n1, n2, n3)

/-- The rollover test of line 115:
`last_month is not None and mm < last_month`. -/
def rollover (lastMonth : Option Nat) (mm : Nat) : Bool :=
  match lastMonth with
  | some lm => decide (mm < lm)
  | none => false

/-! ## The main scan loop

`parse_input`'s `while i < len(lines)` loop (lines 100-191).  The loop state
is `(i, year, lastMonth, curKey, sched, warns)`; the extra `trace` component
records, for every line processed by the date branch, the pair
`(month, year used at that line)` — it is a ghost output (discarded by
`parse_input`) that lets theorems speak about the year-rollover history.
The first argument is fuel: each iteration advances `i` by at least one, so
`lines.length` iterations always reach `i ≥ lines.length` and the
fuel-exhausted branch (which returns the state unchanged, exactly like the
loop exit) is never the one that decides the result when the fuel is at
least `lines.length` (`parseLoop_fuel_irrelevant` below). -/
def parseLoop (lines : List String) :
    Nat → Nat → Nat → Option Nat → Option String →
    List (String × List Event) → List String → List (Nat × Nat) →
    List (String × List Event) × List String × List (Nat × Nat)
  | 0, _, _, _, _, sched, warns, trace => (sched, warns, trace)
  | fuel + 1, i, year, lastMonth, curKey, sched, warns, trace =>
    if i < lines.length then
      let ln := pyStrip (lines.getD i "")
      if ln = "" then
        parseLoop lines fuel (i + 1) year lastMonth curKey sched warns trace
      else
        match dateMatch ln with
        | some (dd, mm) =>
          let year' := if rollover lastMonth mm then year + 1 else year
          if isValidDate year' mm dd then
            parseLoop lines fuel (i + 1) year' (some mm)
              (some (formatDateKey year' mm dd))
              (setdefault sched (formatDateKey year' mm dd)) warns
              (trace ++ [(mm, year')])
          else
            parseLoop lines fuel (i + 1) year' (some mm) none sched
              (warns ++ ["Αδυναμία δημιουργίας ημερομηνίας από: " ++ ln])
              (trace ++ [(mm, year')])
        | none =>
          match curKey with
          | none => parseLoop lines fuel (i + 1) year lastMonth none sched warns trace
          | some dk =>
            if timeMatch ln then
              let time_str := normalize_spaces ln
              match nextThree lines i with
              | none =>
                parseLoop lines fuel (i + 1) year lastMonth (some dk) sched
                  (warns ++
                    ["Λείπουν γραμμές μετά την ώρα " ++ time_str ++ " στη μέρα " ++ dk])
                  trace
              | some (n1, n2, n3) =>
                let channel := normalize_spaces n1.2
                let matchStr := normalize_spaces n2.2
                let comp := normalize_spaces n3.2
                match next_nonempty lines (n3.1 + 1) with
                | some n4 =>
                  let maybe_sport := normalize_spaces n4.2
                  if SPORT_LINE_SET.contains maybe_sport && !timeMatch maybe_sport &&
                      (dateMatch maybe_sport).isNone then
                    parseLoop lines fuel (n4.1 + 1) year lastMonth (some dk)
                      (schedAppend sched dk
                        ⟨dk, time_str, channel, matchStr, comp, maybe_sport⟩)
                      warns trace
                  else
                    parseLoop lines fuel (n3.1 + 1) year lastMonth (some dk)
                      (schedAppend sched dk
                        ⟨dk, time_str, channel, matchStr, comp,
                          infer_sport channel matchStr comp⟩)
                      warns trace
                | none =>
                  parseLoop lines fuel (n3.1 + 1) year lastMonth (some dk)
                    (schedAppend sched dk
                      ⟨dk, time_str, channel, matchStr, comp,
                        infer_sport channel matchStr comp⟩)
                    warns trace
            else
              parseLoop lines fuel (i + 1) year lastMonth (some dk) sched warns trace
    else (sched, warns, trace)

/-- The scan phase of `parse_input` (everything before the final per-day
sort), from the initial state of lines 92-99, plus the ghost rollover
trace.  `base_year` abstracts `athens_now().year` (line 95). -/
def parse_raw (base_year : Nat) (text : String) :
    List (String × List Event) × List String × List (Nat × Nat) :=
  parseLoop (linesOf text) (linesOf text).length 0 base_year none none [] [] []

/-- Split a character list at every `:`. -/
def splitColon : List Char → List Char → List (List Char)
  | [], acc => [acc.reverse]
  | ':' :: rest, acc => acc.reverse :: splitColon rest []
  | c :: rest, acc => splitColon rest (c :: acc)

/-- `int` on a digit string. -/
def natOfDigits (l : List Char) : Nat := l.foldl (fun n c => n * 10 + digitVal c) 0

/-- `time_key` (line 194): `hh, mm = t.split(":")`, then the pair
`(int(hh), int(mm))`.  Every time stored in the schedule has the exact shape
`HH:MM`, so the catch-all branch (Python would raise on it) is unreachable
on parser output. -/
def time_key (t : String) : Nat × Nat :=
  match splitColon t.data [] with
  | [hh, mm] => (natOfDigits hh, natOfDigits mm)
  | _ => (0, 0)

/-- The sort key comparison of line 199: Python tuple order on
`time_key`, i.e. lexicographic on `(hour, minute)`. -/
def timeRel (a b : Event) : Prop :=
  (time_key a.time).1 < (time_key b.time).1 ∨
    ((time_key a.time).1 = (time_key b.time).1 ∧ (time_key a.time).2 ≤ (time_key b.time).2)

instance : DecidableRel timeRel := fun a b => by unfold timeRel; infer_instance

/-- `parse_input` (line 82): scan, then stably sort each day's events by
`time_key` (lines 193-199).  Python's `list.sort` is stable; so is
`List.insertionSort`, and a stable sort's output is determined by the input,
so the model is exact.  Returns `(schedule, warnings)`. -/
def parse_input (base_year : Nat) (text : String) :
    List (String × List Event) × List String :=
  ((parse_raw base_year text).1.map
      (fun p => (p.1, List.insertionSort timeRel p.2)),
    (parse_raw base_year text).2.1)

/-- The non-blank-line predicate the lookahead searches for. -/
def nonblank (l : String) : Bool := !(pyStrip l == "")

def descents : List Nat → Nat
  | a :: b :: rest => (if b < a then 1 else 0) + descents (b :: rest)
  | _ => 0

/-- Invariant of the ghost trace: the year recorded at position `k` is the
initial year plus the number of month decreases seen up to and including
that date line. -/
def traceOk (y0 : Nat) (trace : List (Nat × Nat)) : Prop :=
  ∀ k, k < trace.length →
    (trace.getD k (0, 0)).2 = y0 + descents ((trace.map Prod.fst).take (k + 1))

instance : IsTrans Event timeRel :=
  ⟨fun a b c hab hbc => by
    unfold timeRel at *
    omega⟩

instance : IsTotal Event timeRel :=
  ⟨fun a b => by
    unfold timeRel
    omega⟩

/-- The literal keyword list of the table's `Τένις` entry. -/
def tennisKeys : List String :=
  ["ATP", "WTA", "United Cup", "Grand Slam", "Challenger", "ITF", "Davis Cup",
   "Billie Jean King"]

/-! ## Concrete sanity checks -/

example : infer_sport "COSMOTE SPORT 1" "Real Madrid - Barcelona" "La Liga"
    = "Ποδόσφαιρο" := by decide
example : infer_sport "" "Tsitsipas - Alcaraz ATP Finals" "Davis Cup"
    = "Τένις" := by decide
example : infer_sport "EPT 1" "Olympiacos - Milan" "Champions League"
    = "Βόλεϊ" := by decide
example : infer_sport "channel one" "abc - def" "xyz" = "" := by decide

example : formatDateKey 2025 12 1 = "2025-12-01" := by decide

example : splitlines "1/12\n21:30\n" = ["1/12", "21:30"] := by decide
example : splitlines "a\r\n\nb" = ["a", "", "b"] := by decide
example : splitlines "" = [] := by decide

example :
    parse_input 2025 "1/12\n21:30\nCOSMOTE SPORT 1\nReal Madrid - Barcelona\nLa Liga" =
      ([("2025-12-01",
         [⟨"2025-12-01", "21:30", "COSMOTE SPORT 1", "Real Madrid - Barcelona",
           "La Liga", "Ποδόσφαιρο"⟩])], []) := by decide

/-! ## Derived step equations for the scan loop

One lemma per branch of the `while` body, each obtained by unfolding one
iteration.  All later theorems about the loop go through these. -/

theorem parseLoop_exit (lines : List String) (fuel i year : Nat)
    (lastMonth : Option Nat) (curKey : Option String)
    (sched : List (String × List Event)) (warns : List String)
    (trace : List (Nat × Nat)) (h : lines.length ≤ i) :
    parseLoop lines fuel i year lastMonth curKey sched warns trace =
      (sched, warns, trace) := by
  cases fuel with
  | zero => rfl
  | succ fuel => rw [parseLoop, if_neg (by omega)]

theorem parseLoop_blank_step (lines : List String) (fuel i year : Nat)
    (lastMonth : Option Nat) (curKey : Option String)
    (sched : List (String × List Event)) (warns : List String)
    (trace : List (Nat × Nat)) (h : i < lines.length)
    (hb : pyStrip (lines.getD i "") = "") :
    parseLoop lines (fuel + 1) i year lastMonth curKey sched warns trace =
      parseLoop lines fuel (i + 1) year lastMonth curKey sched warns trace := by
  rw [parseLoop, if_pos h]
  simp only [hb, if_pos rfl, if_true]

theorem parseLoop_date_step (lines : List String) (fuel i year dd mm year' : Nat)
    (lastMonth : Option Nat) (curKey : Option String)
    (sched : List (String × List Event)) (warns : List String)
    (trace : List (Nat × Nat)) (h : i < lines.length)
    (hdm : dateMatch (pyStrip (lines.getD i "")) = some (dd, mm))
    (hy : year' = if rollover lastMonth mm then year + 1 else year) :
    parseLoop lines (fuel + 1) i year lastMonth curKey sched warns trace =
      (if isValidDate year' mm dd then
        parseLoop lines fuel (i + 1) year' (some mm)
          (some (formatDateKey year' mm dd))
          (setdefault sched (formatDateKey year' mm dd)) warns
          (trace ++ [(mm, year')])
      else
        parseLoop lines fuel (i + 1) year' (some mm) none sched
          (warns ++
            ["Αδυναμία δημιουργίας ημερομηνίας από: " ++ pyStrip (lines.getD i "")])
          (trace ++ [(mm, year')])) := by
  have hne : ¬ pyStrip (lines.getD i "") = "" := by
    intro he
    rw [he] at hdm
    exact Option.noConfusion hdm
  rw [parseLoop, if_pos h]
  simp only [hne, if_neg, ite_false, hdm, ← hy]

theorem parseLoop_skip_nodate_step (lines : List String) (fuel i year : Nat)
    (lastMonth : Option Nat)
    (sched : List (String × List Event)) (warns : List String)
    (trace : List (Nat × Nat)) (h : i < lines.length)
    (hb : ¬ pyStrip (lines.getD i "") = "")
    (hdm : dateMatch (pyStrip (lines.getD i "")) = none) :
    parseLoop lines (fuel + 1) i year lastMonth none sched warns trace =
      parseLoop lines fuel (i + 1) year lastMonth none sched warns trace := by
  rw [parseLoop, if_pos h]
  simp only [hb, ite_false, hdm]

theorem parseLoop_other_step (lines : List String) (fuel i year : Nat)
    (lastMonth : Option Nat) (dk : String)
    (sched : List (String × List Event)) (warns : List String)
    (trace : List (Nat × Nat)) (h : i < lines.length)
    (hb : ¬ pyStrip (lines.getD i "") = "")
    (hdm : dateMatch (pyStrip (lines.getD i "")) = none)
    (ht : timeMatch (pyStrip (lines.getD i "")) = false) :
    parseLoop lines (fuel + 1) i year lastMonth (some dk) sched warns trace =
      parseLoop lines fuel (i + 1) year lastMonth (some dk) sched warns trace := by
  rw [parseLoop, if_pos h]
  simp only [hb, ite_false, hdm, ht, Bool.false_eq_true, if_false]

theorem parseLoop_missing_step (lines : List String) (fuel i year : Nat)
    (lastMonth : Option Nat) (dk : String)
    (sched : List (String × List Event)) (warns : List String)
    (trace : List (Nat × Nat)) (h : i < lines.length)
    (hdm : dateMatch (pyStrip (lines.getD i "")) = none)
    (ht : timeMatch (pyStrip (lines.getD i "")) = true)
    (h3 : nextThree lines i = none) :
    parseLoop lines (fuel + 1) i year lastMonth (some dk) sched warns trace =
      parseLoop lines fuel (i + 1) year lastMonth (some dk) sched
        (warns ++
          ["Λείπουν γραμμές μετά την ώρα " ++ normalize_spaces (pyStrip (lines.getD i "")) ++
            " στη μέρα " ++ dk])
        trace := by
  have hne : ¬ pyStrip (lines.getD i "") = "" := by
    intro he
    rw [he] at ht
    exact Bool.noConfusion ht
  rw [parseLoop, if_pos h]
  simp only [hne, ite_false, hdm, ht, ite_true, h3]

theorem parseLoop_event_explicit_step (lines : List String) (fuel i year : Nat)
    (lastMonth : Option Nat) (dk : String)
    (sched : List (String × List Event)) (warns : List String)
    (trace : List (Nat × Nat)) (j1 j2 j3 j4 : Nat) (s1 s2 s3 s4 : String)
    (h : i < lines.length)
    (hdm : dateMatch (pyStrip (lines.getD i "")) = none)
    (ht : timeMatch (pyStrip (lines.getD i "")) = true)
    (h3 : nextThree lines i = some ((j1, s1), (j2, s2), (j3, s3)))
    (h4 : next_nonempty lines (j3 + 1) = some (j4, s4))
    (hs : SPORT_LINE_SET.contains (normalize_spaces s4) = true)
    (hst : timeMatch (normalize_spaces s4) = false)
    (hsd : dateMatch (normalize_spaces s4) = none) :
    parseLoop lines (fuel + 1) i year lastMonth (some dk) sched warns trace =
      parseLoop lines fuel (j4 + 1) year lastMonth (some dk)
        (schedAppend sched dk
          ⟨dk, normalize_spaces (pyStrip (lines.getD i "")), normalize_spaces s1,
            normalize_spaces s2, normalize_spaces s3, normalize_spaces s4⟩)
        warns trace := by
  have hne : ¬ pyStrip (lines.getD i "") = "" := by
    intro he
    rw [he] at ht
    exact Bool.noConfusion ht
  rw [parseLoop, if_pos h]
  simp only [hne, ite_false, hdm, ht, ite_true, h3, h4, hs, hst, hsd,
    Option.isNone_none, Bool.not_false, Bool.and_self, Bool.and_true, Bool.true_and]

theorem parseLoop_event_infer_step (lines : List String) (fuel i year : Nat)
    (lastMonth : Option Nat) (dk : String)
    (sched : List (String × List Event)) (warns : List String)
    (trace : List (Nat × Nat)) (j1 j2 j3 j4 : Nat) (s1 s2 s3 s4 : String)
    (h : i < lines.length)
    (hdm : dateMatch (pyStrip (lines.getD i "")) = none)
    (ht : timeMatch (pyStrip (lines.getD i "")) = true)
    (h3 : nextThree lines i = some ((j1, s1), (j2, s2), (j3, s3)))
    (h4 : next_nonempty lines (j3 + 1) = some (j4, s4))
    (hs : (SPORT_LINE_SET.contains (normalize_spaces s4) && !timeMatch (normalize_spaces s4) &&
      (dateMatch (normalize_spaces s4)).isNone) = false) :
    parseLoop lines (fuel + 1) i year lastMonth (some dk) sched warns trace =
      parseLoop lines fuel (j3 + 1) year lastMonth (some dk)
        (schedAppend sched dk
          ⟨dk, normalize_spaces (pyStrip (lines.getD i "")), normalize_spaces s1,
            normalize_spaces s2, normalize_spaces s3,
            infer_sport (normalize_spaces s1) (normalize_spaces s2)
              (normalize_spaces s3)⟩)
        warns trace := by
  have hne : ¬ pyStrip (lines.getD i "") = "" := by
    intro he
    rw [he] at ht
    exact Bool.noConfusion ht
  rw [parseLoop, if_pos h]
  simp only [hne, ite_false, hdm, ht, ite_true, h3, h4, hs, Bool.false_eq_true]

theorem parseLoop_event_nofourth_step (lines : List String) (fuel i year : Nat)
    (lastMonth : Option Nat) (dk : String)
    (sched : List (String × List Event)) (warns : List String)
    (trace : List (Nat × Nat)) (j1 j2 j3 : Nat) (s1 s2 s3 : String)
    (h : i < lines.length)
    (hdm : dateMatch (pyStrip (lines.getD i "")) = none)
    (ht : timeMatch (pyStrip (lines.getD i "")) = true)
    (h3 : nextThree lines i = some ((j1, s1), (j2, s2), (j3, s3)))
    (h4 : next_nonempty lines (j3 + 1) = none) :
    parseLoop lines (fuel + 1) i year lastMonth (some dk) sched warns trace =
      parseLoop lines fuel (j3 + 1) year lastMonth (some dk)
        (schedAppend sched dk
          ⟨dk, normalize_spaces (pyStrip (lines.getD i "")), normalize_spaces s1,
            normalize_spaces s2, normalize_spaces s3,
            infer_sport (normalize_spaces s1) (normalize_spaces s2)
              (normalize_spaces s3)⟩)
        warns trace := by
  have hne : ¬ pyStrip (lines.getD i "") = "" := by
    intro he
    rw [he] at ht
    exact Bool.noConfusion ht
  rw [parseLoop, if_pos h]
  simp only [hne, ite_false, hdm, ht, ite_true, h3, h4]

/-! ## Lookahead: bounds and non-blank counting -/

theorem next_nonempty_past (lines : List String) (j : Nat) (h : lines.length ≤ j) :
    next_nonempty lines j = none := by
  unfold next_nonempty
  rw [List.drop_eq_nil_of_le h]
  rfl

theorem next_nonempty_unfold (lines : List String) (j : Nat) (h : j < lines.length) :
    next_nonempty lines j =
      if pyStrip (lines.getD j "") = "" then next_nonempty lines (j + 1)
      else some (j, pyStrip (lines.getD j "")) := by
  unfold next_nonempty
  rw [List.drop_eq_getElem_cons h, findNonempty]
  rw [List.getD_eq_getElem lines "" h]

theorem next_nonempty_bounds (lines : List String) :
    ∀ (j k : Nat) (s : String),
      next_nonempty lines j = some (k, s) → j ≤ k ∧ k < lines.length := by
  suffices H : ∀ (n j : Nat), lines.length - j = n → ∀ (k : Nat) (s : String),
      next_nonempty lines j = some (k, s) → j ≤ k ∧ k < lines.length by
    intro j
    exact H (lines.length - j) j rfl
  intro n
  induction n using Nat.strong_induction_on with
  | _ n ih =>
    intro j hn k s h
    rcases Nat.lt_or_ge j lines.length with hj | hj
    · rw [next_nonempty_unfold lines j hj] at h
      by_cases hb : pyStrip (lines.getD j "") = ""
      · rw [if_pos hb] at h
        have := ih (lines.length - (j + 1)) (by omega) (j + 1) rfl k s h
        omega
      · rw [if_neg hb] at h
        cases h
        omega
    · rw [next_nonempty_past lines j hj] at h
      exact Option.noConfusion h

/-- A successful lookup points at a non-blank line and returns its stripped
content. -/
theorem next_nonempty_content (lines : List String) :
    ∀ (j k : Nat) (s : String), next_nonempty lines j = some (k, s) →
      s = pyStrip (lines.getD k "") ∧ ¬ s = "" := by
  suffices H : ∀ (n j : Nat), lines.length - j = n → ∀ (k : Nat) (s : String),
      next_nonempty lines j = some (k, s) → s = pyStrip (lines.getD k "") ∧ ¬ s = "" by
    intro j
    exact H (lines.length - j) j rfl
  intro n
  induction n using Nat.strong_induction_on with
  | _ n ih =>
    intro j hn k s h
    rcases Nat.lt_or_ge j lines.length with hj | hj
    · rw [next_nonempty_unfold lines j hj] at h
      by_cases hb : pyStrip (lines.getD j "") = ""
      · rw [if_pos hb] at h
        exact ih (lines.length - (j + 1)) (by omega) (j + 1) rfl k s h
      · rw [if_neg hb] at h
        cases h
        exact ⟨rfl, hb⟩
    · rw [next_nonempty_past lines j hj] at h
      exact Option.noConfusion h

/-- Counting characterisation: a failed lookup means no non-blank line
remains, a successful one accounts for exactly one non-blank line. -/
theorem next_nonempty_count (lines : List String) :
    ∀ (j : Nat),
      (next_nonempty lines j = none → (lines.drop j).countP nonblank = 0) ∧
      (∀ k s, next_nonempty lines j = some (k, s) →
        (lines.drop j).countP nonblank = (lines.drop (k + 1)).countP nonblank + 1) := by
  suffices H : ∀ (n j : Nat), lines.length - j = n →
      (next_nonempty lines j = none → (lines.drop j).countP nonblank = 0) ∧
      (∀ k s, next_nonempty lines j = some (k, s) →
        (lines.drop j).countP nonblank = (lines.drop (k + 1)).countP nonblank + 1) by
    intro j
    exact H (lines.length - j) j rfl
  intro n
  induction n using Nat.strong_induction_on with
  | _ n ih =>
    intro j hn
    rcases Nat.lt_or_ge j lines.length with hj | hj
    · have hdrop : lines.drop j = lines.getD j "" :: lines.drop (j + 1) := by
        rw [List.drop_eq_getElem_cons hj, List.getD_eq_getElem lines "" hj]
      have hih := ih (lines.length - (j + 1)) (by omega) (j + 1) rfl
      constructor
      · intro h
        rw [next_nonempty_unfold lines j hj] at h
        by_cases hb : pyStrip (lines.getD j "") = ""
        · rw [if_pos hb] at h
          rw [hdrop, List.countP_cons]
          have hnb : nonblank (lines.getD j "") = false := by
            unfold nonblank
            rw [hb]
            rfl
          rw [hnb]
          have := hih.1 h
          simp only [Bool.false_eq_true, if_false]
          omega
        · rw [if_neg hb] at h
          exact Option.noConfusion h
      · intro k s h
        rw [next_nonempty_unfold lines j hj] at h
        by_cases hb : pyStrip (lines.getD j "") = ""
        · rw [if_pos hb] at h
          rw [hdrop, List.countP_cons]
          have hnb : nonblank (lines.getD j "") = false := by
            unfold nonblank
            rw [hb]
            rfl
          rw [hnb]
          have := hih.2 k s h
          simp only [Bool.false_eq_true, if_false]
          omega
        · rw [if_neg hb] at h
          cases h
          rw [hdrop, List.countP_cons]
          have hnb : nonblank (lines.getD j "") = true := by
            unfold nonblank
            simp only [Bool.not_eq_true', beq_eq_false_iff_ne, ne_eq]
            exact hb
          rw [hnb]
          simp
    · constructor
      · intro _
        rw [List.drop_eq_nil_of_le hj]
        rfl
      · intro k s h
        rw [next_nonempty_past lines j hj] at h
        exact Option.noConfusion h

/-- `nextThree` succeeds exactly on three strictly increasing in-range
indices; on success at least three non-blank lines follow `i`. -/
theorem nextThree_bounds (lines : List String) (i j1 j2 j3 : Nat) (s1 s2 s3 : String)
    (h : nextThree lines i = some ((j1, s1), (j2, s2), (j3, s3))) :
    i < j1 ∧ j1 < j2 ∧ j2 < j3 ∧ j3 < lines.length := by
  unfold nextThree at h
  cases h1 : next_nonempty lines (i + 1) with
  | none =>
    simp only [h1] at h
    exact Option.noConfusion h
  | some n1 =>
    obtain ⟨k1, t1⟩ := n1
    simp only [h1] at h
    cases h2 : next_nonempty lines (k1 + 1) with
    | none =>
      simp only [h2] at h
      exact Option.noConfusion h
    | some n2 =>
      obtain ⟨k2, t2⟩ := n2
      simp only [h2] at h
      cases h3 : next_nonempty lines (k2 + 1) with
      | none =>
        simp only [h3] at h
        exact Option.noConfusion h
      | some n3 =>
        obtain ⟨k3, t3⟩ := n3
        simp only [h3, Option.some.injEq, Prod.ext_iff] at h
        obtain ⟨⟨e1, _⟩, ⟨e2, _⟩, e3, _⟩ := h
        subst e1
        subst e2
        subst e3
        have b1 := next_nonempty_bounds lines (i + 1) k1 t1 h1
        have b2 := next_nonempty_bounds lines (k1 + 1) k2 t2 h2
        have b3 := next_nonempty_bounds lines (k2 + 1) k3 t3 h3
        omega

theorem nextThree_count_ge (lines : List String) (i j1 j2 j3 : Nat) (s1 s2 s3 : String)
    (h : nextThree lines i = some ((j1, s1), (j2, s2), (j3, s3))) :
    3 ≤ (lines.drop (i + 1)).countP nonblank := by
  unfold nextThree at h
  cases h1 : next_nonempty lines (i + 1) with
  | none =>
    simp only [h1] at h
    exact Option.noConfusion h
  | some n1 =>
    obtain ⟨k1, t1⟩ := n1
    simp only [h1] at h
    cases h2 : next_nonempty lines (k1 + 1) with
    | none =>
      simp only [h2] at h
      exact Option.noConfusion h
    | some n2 =>
      obtain ⟨k2, t2⟩ := n2
      simp only [h2] at h
      cases h3 : next_nonempty lines (k2 + 1) with
      | none =>
        simp only [h3] at h
        exact Option.noConfusion h
      | some n3 =>
        obtain ⟨k3, t3⟩ := n3
        simp only [h3, Option.some.injEq, Prod.ext_iff] at h
        obtain ⟨⟨e1, _⟩, ⟨e2, _⟩, e3, _⟩ := h
        subst e1
        subst e2
        subst e3
        have c1 := (next_nonempty_count lines (i + 1)).2 k1 t1 h1
        have c2 := (next_nonempty_count lines (k1 + 1)).2 k2 t2 h2
        have c3 := (next_nonempty_count lines (k2 + 1)).2 k3 t3 h3
        omega

/-- Fewer than three non-blank lines after `i` force the lookahead to
fail. -/
theorem nextThree_of_count_lt (lines : List String) (i : Nat)
    (h : (lines.drop (i + 1)).countP nonblank < 3) : nextThree lines i = none := by
  cases h3 : nextThree lines i with
  | none => rfl
  | some t =>
    obtain ⟨⟨j1, s1⟩, ⟨j2, s2⟩, ⟨j3, s3⟩⟩ := t
    have := nextThree_count_ge lines i j1 j2 j3 s1 s2 s3 h3
    omega

/-! ## Fuel adequacy

Every iteration advances the cursor by at least one line, so any fuel of at
least `lines.length - i` computes the same result: the fuel device does not
change the function the loop denotes, it only witnesses termination. -/

theorem parseLoop_fuel_irrelevant (lines : List String) :
    ∀ (fuel1 fuel2 i year : Nat) (lastMonth : Option Nat) (curKey : Option String)
      (sched : List (String × List Event)) (warns : List String)
      (trace : List (Nat × Nat)),
      lines.length - i ≤ fuel1 → lines.length - i ≤ fuel2 →
      parseLoop lines fuel1 i year lastMonth curKey sched warns trace =
        parseLoop lines fuel2 i year lastMonth curKey sched warns trace := by
  intro fuel1
  induction fuel1 with
  | zero =>
    intro fuel2 i year lastMonth curKey sched warns trace h1 h2
    rw [parseLoop_exit lines 0 i year lastMonth curKey sched warns trace (by omega),
      parseLoop_exit lines fuel2 i year lastMonth curKey sched warns trace (by omega)]
  | succ fuel1 ih =>
    intro fuel2 i year lastMonth curKey sched warns trace h1 h2
    rcases Nat.lt_or_ge i lines.length with hi | hi
    · cases fuel2 with
      | zero => omega
      | succ fuel2 =>
        by_cases hb : pyStrip (lines.getD i "") = ""
        · rw [parseLoop_blank_step lines fuel1 i year lastMonth curKey sched warns trace hi hb,
            parseLoop_blank_step lines fuel2 i year lastMonth curKey sched warns trace hi hb]
          exact ih fuel2 (i + 1) year lastMonth curKey sched warns trace
            (by omega) (by omega)
        · cases hdm : dateMatch (pyStrip (lines.getD i "")) with
          | some p =>
            obtain ⟨dd, mm⟩ := p
            rw [parseLoop_date_step lines fuel1 i year dd mm _ lastMonth curKey sched
                warns trace hi hdm rfl,
              parseLoop_date_step lines fuel2 i year dd mm _ lastMonth curKey sched
                warns trace hi hdm rfl]
            by_cases hv : isValidDate
                (if rollover lastMonth mm then year + 1 else year) mm dd = true
            · rw [if_pos hv, if_pos hv]
              exact ih fuel2 (i + 1) _ (some mm) _ _ warns _ (by omega) (by omega)
            · rw [if_neg hv, if_neg hv]
              exact ih fuel2 (i + 1) _ (some mm) none sched _ _ (by omega) (by omega)
          | none =>
            cases curKey with
            | none =>
              rw [parseLoop_skip_nodate_step lines fuel1 i year lastMonth sched warns
                  trace hi hb hdm,
                parseLoop_skip_nodate_step lines fuel2 i year lastMonth sched warns
                  trace hi hb hdm]
              exact ih fuel2 (i + 1) year lastMonth none sched warns trace
                (by omega) (by omega)
            | some dk =>
              by_cases ht : timeMatch (pyStrip (lines.getD i "")) = true
              · cases h3 : nextThree lines i with
                | none =>
                  rw [parseLoop_missing_step lines fuel1 i year lastMonth dk sched warns
                      trace hi hdm ht h3,
                    parseLoop_missing_step lines fuel2 i year lastMonth dk sched warns
                      trace hi hdm ht h3]
                  exact ih fuel2 (i + 1) year lastMonth (some dk) sched _ trace
                    (by omega) (by omega)
                | some t =>
                  obtain ⟨⟨j1, s1⟩, ⟨j2, s2⟩, ⟨j3, s3⟩⟩ := t
                  have hb3 := nextThree_bounds lines i j1 j2 j3 s1 s2 s3 h3
                  cases h4 : next_nonempty lines (j3 + 1) with
                  | none =>
                    rw [parseLoop_event_nofourth_step lines fuel1 i year lastMonth dk
                        sched warns trace j1 j2 j3 s1 s2 s3 hi hdm ht h3 h4,
                      parseLoop_event_nofourth_step lines fuel2 i year lastMonth dk
                        sched warns trace j1 j2 j3 s1 s2 s3 hi hdm ht h3 h4]
                    exact ih fuel2 (j3 + 1) year lastMonth (some dk) _ warns trace
                      (by omega) (by omega)
                  | some n4 =>
                    obtain ⟨j4, s4⟩ := n4
                    have hb4 := next_nonempty_bounds lines (j3 + 1) j4 s4 h4
                    by_cases hs : (SPORT_LINE_SET.contains (normalize_spaces s4) &&
                        !timeMatch (normalize_spaces s4) &&
                        (dateMatch (normalize_spaces s4)).isNone) = true
                    · have hs1 : SPORT_LINE_SET.contains (normalize_spaces s4) = true := by
                        simp only [Bool.and_eq_true] at hs
                        exact hs.1.1
                      have hs2 : timeMatch (normalize_spaces s4) = false := by
                        simp only [Bool.and_eq_true, Bool.not_eq_true'] at hs
                        exact hs.1.2
                      have hs3 : dateMatch (normalize_spaces s4) = none := by
                        simp only [Bool.and_eq_true, Option.isNone_iff_eq_none] at hs
                        exact hs.2
                      rw [parseLoop_event_explicit_step lines fuel1 i year lastMonth dk
                          sched warns trace j1 j2 j3 j4 s1 s2 s3 s4 hi hdm ht h3 h4
                          hs1 hs2 hs3,
                        parseLoop_event_explicit_step lines fuel2 i year lastMonth dk
                          sched warns trace j1 j2 j3 j4 s1 s2 s3 s4 hi hdm ht h3 h4
                          hs1 hs2 hs3]
                      exact ih fuel2 (j4 + 1) year lastMonth (some dk) _ warns trace
                        (by omega) (by omega)
                    · simp only [Bool.not_eq_true] at hs
                      rw [parseLoop_event_infer_step lines fuel1 i year lastMonth dk
                          sched warns trace j1 j2 j3 j4 s1 s2 s3 s4 hi hdm ht h3 h4 hs,
                        parseLoop_event_infer_step lines fuel2 i year lastMonth dk
                          sched warns trace j1 j2 j3 j4 s1 s2 s3 s4 hi hdm ht h3 h4 hs]
                      exact ih fuel2 (j3 + 1) year lastMonth (some dk) _ warns trace
                        (by omega) (by omega)
              · have ht' : timeMatch (pyStrip (lines.getD i "")) = false := by
                  simp only [Bool.not_eq_true] at ht
                  exact ht
                rw [parseLoop_other_step lines fuel1 i year lastMonth dk sched warns
                    trace hi hb hdm ht',
                  parseLoop_other_step lines fuel2 i year lastMonth dk sched warns
                    trace hi hb hdm ht']
                exact ih fuel2 (i + 1) year lastMonth (some dk) sched warns trace
                  (by omega) (by omega)
    · rw [parseLoop_exit lines (fuel1 + 1) i year lastMonth curKey sched warns trace hi,
        parseLoop_exit lines fuel2 i year lastMonth curKey sched warns trace hi]

/-- If no line of the input matches the date pattern, the scan loop starting
with no current date leaves schedule, warnings and trace untouched: date-less
input produces the degenerate empty result, with no warnings. -/
theorem parseLoop_no_dates (lines : List String)
    (hnd : ∀ l ∈ lines, dateMatch (pyStrip l) = none) :
    ∀ (fuel i year : Nat) (lastMonth : Option Nat)
      (sched : List (String × List Event)) (warns : List String)
      (trace : List (Nat × Nat)),
      parseLoop lines fuel i year lastMonth none sched warns trace =
        (sched, warns, trace) := by
  intro fuel
  induction fuel with
  | zero => intro i year lastMonth sched warns trace; rfl
  | succ fuel ih =>
    intro i year lastMonth sched warns trace
    rcases Nat.lt_or_ge i lines.length with hi | hi
    · have hmem : lines.getD i "" ∈ lines := by
        rw [List.getD_eq_getElem lines "" hi]
        exact List.getElem_mem hi
      have hdm := hnd (lines.getD i "") hmem
      by_cases hb : pyStrip (lines.getD i "") = ""
      · rw [parseLoop_blank_step lines fuel i year lastMonth none sched warns trace hi hb]
        exact ih (i + 1) year lastMonth sched warns trace
      · rw [parseLoop_skip_nodate_step lines fuel i year lastMonth sched warns trace
            hi hb hdm]
        exact ih (i + 1) year lastMonth sched warns trace
    · exact parseLoop_exit lines (fuel + 1) i year lastMonth none sched warns trace hi

/-! ## The year-rollover history

`descents ms` counts the strict decreases between consecutive entries of a
month sequence — exactly the number of times the loop's rollover heuristic
fires while processing that sequence. -/

theorem descents_concat (m : Nat) :
    ∀ ms : List Nat, descents (ms ++ [m]) =
      descents ms + (if rollover ms.getLast? m then 1 else 0)
  | [] => by simp [descents, rollover]
  | [a] => by
    by_cases hma : m < a
    · simp [descents, rollover, hma]
    · simp [descents, rollover, hma]
  | a :: b :: rest => by
    have ih := descents_concat m (b :: rest)
    simp only [List.cons_append] at ih ⊢
    rw [descents, descents, List.getLast?_cons_cons]
    omega

theorem descents_zero_of_chain :
    ∀ ms : List Nat, List.Chain' (· ≤ ·) ms → descents ms = 0
  | [] => fun _ => rfl
  | [_] => fun _ => rfl
  | a :: b :: rest => fun h => by
    rw [List.chain'_cons] at h
    have ih := descents_zero_of_chain (b :: rest) h.2
    rw [descents, if_neg (by omega)]
    omega

theorem traceOk_nil (y0 : Nat) : traceOk y0 [] := by
  intro k hk
  simp at hk

theorem traceOk_append (y0 year mm : Nat) (lastMonth : Option Nat)
    (trace : List (Nat × Nat)) (hok : traceOk y0 trace)
    (hyear : year = y0 + descents (trace.map Prod.fst))
    (hlm : lastMonth = (trace.map Prod.fst).getLast?) :
    traceOk y0 (trace ++ [(mm, if rollover lastMonth mm then year + 1 else year)]) ∧
    (if rollover lastMonth mm then year + 1 else year) =
      y0 + descents ((trace ++
        [(mm, if rollover lastMonth mm then year + 1 else year)]).map Prod.fst) ∧
    (some mm : Option Nat) = ((trace ++
        [(mm, if rollover lastMonth mm then year + 1 else year)]).map Prod.fst).getLast? := by
  set year' := if rollover lastMonth mm then year + 1 else year with hy'
  have hmap : (trace ++ [(mm, year')]).map Prod.fst = trace.map Prod.fst ++ [mm] := by
    simp
  have hdesc : descents (trace.map Prod.fst ++ [mm]) =
      descents (trace.map Prod.fst) + (if rollover lastMonth mm then 1 else 0) := by
    rw [descents_concat, hlm]
  have hyear' : year' = y0 + descents (trace.map Prod.fst ++ [mm]) := by
    rw [hdesc, hy']
    split <;> omega
  refine ⟨?_, by rw [hmap]; exact hyear', by rw [hmap, List.getLast?_concat]⟩
  intro k hk
  rw [List.length_append, List.length_singleton] at hk
  rcases Nat.lt_or_ge k trace.length with hkl | hkl
  · rw [List.getD_append _ _ _ _ hkl, hmap,
      List.take_append_of_le_length (by simpa using hkl)]
    exact hok k hkl
  · have hke : k = trace.length := by omega
    subst hke
    rw [List.getD_append_right _ _ _ _ (Nat.le_refl _), Nat.sub_self]
    have hlen : (trace.map Prod.fst ++ [mm]).length ≤ trace.length + 1 := by
      simp
    rw [hmap, List.take_of_length_le hlen]
    simpa using hyear'

/-- The scan loop preserves the trace invariant: whatever it does, every
date line it processes records the year `y0 + number of rollovers so far`. -/
theorem parseLoop_traceOk (lines : List String) :
    ∀ (fuel i year y0 : Nat) (lastMonth : Option Nat) (curKey : Option String)
      (sched : List (String × List Event)) (warns : List String)
      (trace : List (Nat × Nat)),
      traceOk y0 trace →
      year = y0 + descents (trace.map Prod.fst) →
      lastMonth = (trace.map Prod.fst).getLast? →
      traceOk y0 (parseLoop lines fuel i year lastMonth curKey sched warns trace).2.2 := by
  intro fuel
  induction fuel with
  | zero =>
    intro i year y0 lastMonth curKey sched warns trace hok _ _
    exact hok
  | succ fuel ih =>
    intro i year y0 lastMonth curKey sched warns trace hok hyear hlm
    rcases Nat.lt_or_ge i lines.length with hi | hi
    · by_cases hb : pyStrip (lines.getD i "") = ""
      · rw [parseLoop_blank_step lines fuel i year lastMonth curKey sched warns trace hi hb]
        exact ih (i + 1) year y0 lastMonth curKey sched warns trace hok hyear hlm
      · cases hdm : dateMatch (pyStrip (lines.getD i "")) with
        | some p =>
          obtain ⟨dd, mm⟩ := p
          rw [parseLoop_date_step lines fuel i year dd mm _ lastMonth curKey sched
              warns trace hi hdm rfl]
          obtain ⟨hok', hyear', hlm'⟩ :=
            traceOk_append y0 year mm lastMonth trace hok hyear hlm
          by_cases hv : isValidDate
              (if rollover lastMonth mm then year + 1 else year) mm dd = true
          · rw [if_pos hv]
            exact ih (i + 1) _ y0 (some mm) _ _ warns _ hok' hyear' hlm'
          · rw [if_neg hv]
            exact ih (i + 1) _ y0 (some mm) none sched _ _ hok' hyear' hlm'
        | none =>
          cases curKey with
          | none =>
            rw [parseLoop_skip_nodate_step lines fuel i year lastMonth sched warns
                trace hi hb hdm]
            exact ih (i + 1) year y0 lastMonth none sched warns trace hok hyear hlm
          | some dk =>
            by_cases ht : timeMatch (pyStrip (lines.getD i "")) = true
            · cases h3 : nextThree lines i with
              | none =>
                rw [parseLoop_missing_step lines fuel i year lastMonth dk sched warns
                    trace hi hdm ht h3]
                exact ih (i + 1) year y0 lastMonth (some dk) sched _ trace hok hyear hlm
              | some t =>
                obtain ⟨⟨j1, s1⟩, ⟨j2, s2⟩, ⟨j3, s3⟩⟩ := t
                cases h4 : next_nonempty lines (j3 + 1) with
                | none =>
                  rw [parseLoop_event_nofourth_step lines fuel i year lastMonth dk
                      sched warns trace j1 j2 j3 s1 s2 s3 hi hdm ht h3 h4]
                  exact ih (j3 + 1) year y0 lastMonth (some dk) _ warns trace
                    hok hyear hlm
                | some n4 =>
                  obtain ⟨j4, s4⟩ := n4
                  by_cases hs : (SPORT_LINE_SET.contains (normalize_spaces s4) &&
                      !timeMatch (normalize_spaces s4) &&
                      (dateMatch (normalize_spaces s4)).isNone) = true
                  · have hs1 : SPORT_LINE_SET.contains (normalize_spaces s4) = true := by
                      simp only [Bool.and_eq_true] at hs
                      exact hs.1.1
                    have hs2 : timeMatch (normalize_spaces s4) = false := by
                      simp only [Bool.and_eq_true, Bool.not_eq_true'] at hs
                      exact hs.1.2
                    have hs3 : dateMatch (normalize_spaces s4) = none := by
                      simp only [Bool.and_eq_true, Option.isNone_iff_eq_none] at hs
                      exact hs.2
                    rw [parseLoop_event_explicit_step lines fuel i year lastMonth dk
                        sched warns trace j1 j2 j3 j4 s1 s2 s3 s4 hi hdm ht h3 h4
                        hs1 hs2 hs3]
                    exact ih (j4 + 1) year y0 lastMonth (some dk) _ warns trace
                      hok hyear hlm
                  · simp only [Bool.not_eq_true] at hs
                    rw [parseLoop_event_infer_step lines fuel i year lastMonth dk
                        sched warns trace j1 j2 j3 j4 s1 s2 s3 s4 hi hdm ht h3 h4 hs]
                    exact ih (j3 + 1) year y0 lastMonth (some dk) _ warns trace
                      hok hyear hlm
            · have ht' : timeMatch (pyStrip (lines.getD i "")) = false := by
                simp only [Bool.not_eq_true] at ht
                exact ht
              rw [parseLoop_other_step lines fuel i year lastMonth dk sched warns
                  trace hi hb hdm ht']
              exact ih (i + 1) year y0 lastMonth (some dk) sched warns trace hok hyear hlm
    · rw [parseLoop_exit lines (fuel + 1) i year lastMonth curKey sched warns trace hi]
      exact hok

/-- The rollover history of a full parse satisfies the trace invariant. -/
theorem parse_raw_traceOk (base_year : Nat) (text : String) :
    traceOk base_year (parse_raw base_year text).2.2 := by
  unfold parse_raw
  exact parseLoop_traceOk (linesOf text) (linesOf text).length 0 base_year base_year
    none none [] [] [] (traceOk_nil base_year) (by simp [descents]) (by simp)

/-! ## The per-day sort -/

/-- Stability of the per-day sort, phrased through filters: the events
carrying any fixed time appear in the sorted list exactly in their original
order. -/
theorem filter_time_insertionSort (raw : List Event) (t : String) :
    (List.insertionSort timeRel raw).filter (fun e => e.time == t) =
      raw.filter (fun e => e.time == t) := by
  set p := fun e : Event => e.time == t with hp
  have hall : ∀ e ∈ raw.filter p, e.time = t := by
    intro e he
    have hpe := List.of_mem_filter he
    rw [hp] at hpe
    exact eq_of_beq hpe
  have hpair : (raw.filter p).Pairwise timeRel := by
    apply List.pairwise_of_forall_mem_list
    intro a ha b hb
    unfold timeRel
    rw [hall a ha, hall b hb]
    omega
  have hsub : List.Sublist (raw.filter p) (List.insertionSort timeRel raw) :=
    List.sublist_insertionSort hpair (List.filter_sublist raw)
  have hsub2 : List.Sublist (raw.filter p) ((List.insertionSort timeRel raw).filter p) := by
    have hf := hsub.filter p
    have hself : (raw.filter p).filter p = raw.filter p :=
      List.filter_eq_self.mpr (fun a (ha : a ∈ raw.filter p) => List.of_mem_filter ha)
    rwa [hself] at hf
  have hlen : ((List.insertionSort timeRel raw).filter p).length =
      (raw.filter p).length :=
    ((List.perm_insertionSort timeRel raw).filter p).length_eq
  exact (hsub2.eq_of_length hlen.symm).symm

/-- Entries of the classifier table whose keywords all miss the haystack
contribute nothing: the scan falls through to the empty string. -/
theorem firstMatchingSport_empty (hay : String) :
    ∀ tbl : List (String × List String),
      (∀ entry ∈ tbl, ∀ k ∈ entry.2,
        containsSub (pyLower hay) (pyLower k) = false) →
      firstMatchingSport hay tbl = ""
  | [] => fun _ => rfl
  | (sport, keys) :: rest => fun h => by
    rw [firstMatchingSport, if_neg, firstMatchingSport_empty hay rest]
    · intro entry hentry k hk
      exact h entry (List.mem_cons_of_mem _ hentry) k hk
    · intro hany
      obtain ⟨k, hk, hck⟩ := List.any_eq_true.mp hany
      have := h (sport, keys) (List.mem_cons_self _ _) k hk
      rw [this] at hck
      exact Bool.noConfusion hck

/-- First-match-wins contract of the classifier scan: if the entry at
position `n` matches the haystack and every earlier entry does not, the
scan returns exactly that entry's category. -/
theorem firstMatchingSport_spec (hay : String) :
    ∀ (tbl : List (String × List String)) (n : Nat), n < tbl.length →
      entryMatches hay (tbl.getD n ("", [])) = true →
      (∀ m, m < n → entryMatches hay (tbl.getD m ("", [])) = false) →
      firstMatchingSport hay tbl = (tbl.getD n ("", [])).1 := by
  intro tbl
  induction tbl with
  | nil =>
    intro n hn _ _
    simp at hn
  | cons p rest ih =>
    obtain ⟨sport, keys⟩ := p
    intro n hn hmatch hprev
    cases n with
    | zero =>
      rw [List.getD_cons_zero] at hmatch ⊢
      rw [firstMatchingSport, if_pos]
      exact hmatch
    | succ m =>
      have h0 := hprev 0 (by omega)
      rw [List.getD_cons_zero] at h0
      rw [List.getD_cons_succ] at hmatch ⊢
      rw [firstMatchingSport, if_neg]
      · exact ih m (by simpa using hn) hmatch
          (fun m' hm' => by
            have := hprev (m' + 1) (by omega)
            rwa [List.getD_cons_succ] at this)
      · intro hc
        rw [show (keys.any fun k => containsSub (pyLower hay) (pyLower k)) =
            entryMatches hay (sport, keys) from rfl, h0] at hc
        exact Bool.noConfusion hc

/-- C1: the classifier searches the case-insensitive haystack built from
`(channel, match, competition)` against the ordered `SPORT_KEYWORDS` table
and, for every triple, returns the category of the first entry some keyword
of which is a substring (first conjunct, for each position `n` of the
table), and `""` when no entry matches (third conjunct); since the `Τένις`
entry is first, any haystack containing a Tennis keyword (such as `ATP`)
yields `Τένις` even when a `Ποδόσφαιρο` keyword such as `Cup` also occurs
(second conjunct). -/
theorem claim_C1 :
    (∀ (channel matchStr comp : String) (n : Nat), n < SPORT_KEYWORDS.length →
      entryMatches (channel ++ " " ++ matchStr ++ " " ++ comp)
        (SPORT_KEYWORDS.getD n ("", [])) = true →
      (∀ m, m < n →
        entryMatches (channel ++ " " ++ matchStr ++ " " ++ comp)
          (SPORT_KEYWORDS.getD m ("", [])) = false) →
      infer_sport channel matchStr comp = (SPORT_KEYWORDS.getD n ("", [])).1) ∧
    (∀ channel matchStr comp : String,
      (∃ k ∈ tennisKeys,
        containsSub (pyLower (channel ++ " " ++ matchStr ++ " " ++ comp))
          (pyLower k) = true) →
      infer_sport channel matchStr comp = "Τένις") ∧
    (∀ channel matchStr comp : String,
      (∀ entry ∈ SPORT_KEYWORDS, ∀ k ∈ entry.2,
        containsSub (pyLower (channel ++ " " ++ matchStr ++ " " ++ comp))
          (pyLower k) = false) →
      infer_sport channel matchStr comp = "") := by
  refine ⟨?_, ?_, ?_⟩
  · intro channel matchStr comp n hn hmatch hprev
    exact firstMatchingSport_spec _ SPORT_KEYWORDS n hn hmatch hprev
  · rintro channel matchStr comp ⟨k, hk, hc⟩
    unfold infer_sport SPORT_KEYWORDS
    rw [firstMatchingSport, if_pos]
    exact List.any_eq_true.mpr ⟨k, hk, hc⟩
  · intro channel matchStr comp h
    unfold infer_sport
    exact firstMatchingSport_empty _ SPORT_KEYWORDS h

/-- C1 witness: a haystack whose first matching entry is `Μπάσκετ`
(position 2: `NBA` matches, the Τένις and Βόλεϊ entries do not) classifies
as `Μπάσκετ`; `ATP Cup` contains both the Tennis keyword `ATP` and the
football keyword `Cup` and classifies as `Τένις`; a keyword-free triple
classifies as `""`. -/
theorem claim_C1_witness :
    infer_sport "EPT 3" "Lakers - Celtics" "NBA" =
      (SPORT_KEYWORDS.getD 2 ("", [])).1 ∧
    infer_sport "EPT 2" "Djokovic - Sinner" "ATP Cup" = "Τένις" ∧
    infer_sport "channel one" "abc - def" "xyz" = "" :=
  ⟨claim_C1.1 "EPT 3" "Lakers - Celtics" "NBA" 2 (by decide) (by decide)
    (by decide),
   claim_C1.2.1 "EPT 2" "Djokovic - Sinner" "ATP Cup" ⟨"ATP", by decide, by decide⟩,
   claim_C1.2.2 "channel one" "abc - def" "xyz" (by decide)⟩

/-- C10: `Champions League` is listed under the `Βόλεϊ` entry, which
precedes `Ποδόσφαιρο`; so a haystack containing `champions league`
(case-insensitively) and no Tennis keyword classifies as `Βόλεϊ`, never
`Ποδόσφαιρο` — a football Champions League match with no other matching,
earlier keyword is labelled volleyball. -/
theorem claim_C10 (channel matchStr comp : String)
    (hcl : containsSub (pyLower (channel ++ " " ++ matchStr ++ " " ++ comp))
      "champions league" = true)
    (hten : ∀ k ∈ tennisKeys,
      containsSub (pyLower (channel ++ " " ++ matchStr ++ " " ++ comp))
        (pyLower k) = false) :
    infer_sport channel matchStr comp = "Βόλεϊ" ∧
      infer_sport channel matchStr comp ≠ "Ποδόσφαιρο" := by
  have hmain : infer_sport channel matchStr comp = "Βόλεϊ" := by
    unfold infer_sport SPORT_KEYWORDS
    rw [firstMatchingSport, if_neg, firstMatchingSport, if_pos]
    · apply List.any_eq_true.mpr
      refine ⟨"Champions League", by decide, ?_⟩
      have hlow : pyLower "Champions League" = "champions league" := by decide
      rw [hlow]
      exact hcl
    · intro hany
      obtain ⟨k, hk, hck⟩ := List.any_eq_true.mp hany
      have := hten k hk
      rw [this] at hck
      exact Bool.noConfusion hck
  refine ⟨hmain, ?_⟩
  rw [hmain]
  decide

/-- C10 witness: a football Champions League fixture with no Tennis keyword
is classified `Βόλεϊ`. -/
theorem claim_C10_witness :
    infer_sport "EPT 1" "Olympiacos - Real Madrid" "Champions League" = "Βόλεϊ" ∧
      infer_sport "EPT 1" "Olympiacos - Real Madrid" "Champions League"
        ≠ "Ποδόσφαιρο" :=
  claim_C10 "EPT 1" "Olympiacos - Real Madrid" "Champions League"
    (by decide) (by decide)

/-- C2: every day list in the parsed schedule is the stable
`(hour, minute)`-sort of the events appended for that day during the scan:
it is sorted non-decreasingly by `time_key`, and events with equal times
keep their scan order (filters by any fixed time coincide). -/
theorem claim_C2 (base_year : Nat) (text : String) (dk : String) (evs : List Event)
    (h : (dk, evs) ∈ (parse_input base_year text).1) :
    evs.Pairwise timeRel ∧
      ∃ raw, (dk, raw) ∈ (parse_raw base_year text).1 ∧
        evs = List.insertionSort timeRel raw ∧
        ∀ t, evs.filter (fun e => e.time == t) =
          raw.filter (fun e => e.time == t) := by
  unfold parse_input at h
  rw [List.mem_map] at h
  obtain ⟨⟨dk', raw⟩, hmem, heq⟩ := h
  rw [Prod.mk.injEq] at heq
  obtain ⟨rfl, rfl⟩ := heq
  exact ⟨List.sorted_insertionSort timeRel raw,
    raw, hmem, rfl, fun t => filter_time_insertionSort raw t⟩

/-- C2 witness: a day with three events, two sharing `21:30` in scan order
`A` before `D`, then an earlier `20:00` event; the sorted day keeps the
equal-time pair in scan order behind the `20:00` event. -/
theorem claim_C2_witness :
    (List.Pairwise timeRel
      [⟨"2025-12-01", "20:00", "G", "H", "I", ""⟩,
       ⟨"2025-12-01", "21:30", "A", "B - C", "D", ""⟩,
       ⟨"2025-12-01", "21:30", "D", "E - F", "G", ""⟩]) ∧
    ∃ raw, ("2025-12-01", raw) ∈
        (parse_raw 2025
          "1/12\n21:30\nA\nB - C\nD\n21:30\nD\nE - F\nG\n20:00\nG\nH\nI").1 ∧
      [⟨"2025-12-01", "20:00", "G", "H", "I", ""⟩,
       ⟨"2025-12-01", "21:30", "A", "B - C", "D", ""⟩,
       ⟨"2025-12-01", "21:30", "D", "E - F", "G", ""⟩] =
        List.insertionSort timeRel raw ∧
      ∀ t, List.filter (fun e => e.time == t)
          [(⟨"2025-12-01", "20:00", "G", "H", "I", ""⟩ : Event),
           ⟨"2025-12-01", "21:30", "A", "B - C", "D", ""⟩,
           ⟨"2025-12-01", "21:30", "D", "E - F", "G", ""⟩] =
        raw.filter (fun e => e.time == t) :=
  claim_C2 2025 "1/12\n21:30\nA\nB - C\nD\n21:30\nD\nE - F\nG\n20:00\nG\nH\nI"
    "2025-12-01"
    [⟨"2025-12-01", "20:00", "G", "H", "I", ""⟩,
     ⟨"2025-12-01", "21:30", "A", "B - C", "D", ""⟩,
     ⟨"2025-12-01", "21:30", "D", "E - F", "G", ""⟩]
    (by decide)

theorem descents_take_succ (ms : List Nat) (k : Nat) (hk : k + 1 < ms.length) :
    descents (ms.take (k + 2)) =
      descents (ms.take (k + 1)) +
        (if ms.getD (k + 1) 0 < ms.getD k 0 then 1 else 0) := by
  have h1 : ms.take (k + 2) = ms.take (k + 1) ++ [ms.getD (k + 1) 0] := by
    rw [List.take_succ, List.getD_eq_getElem ms 0 hk]
    congr 1
    rw [List.getElem?_eq_getElem hk]
    rfl
  have h2 : (ms.take (k + 1)).getLast? = some (ms.getD k 0) := by
    have hk' : k < ms.length := by omega
    rw [List.take_succ, List.getD_eq_getElem ms 0 hk', List.getElem?_eq_getElem hk']
    rw [show (some ms[k]).toList = [ms[k]] from rfl, List.getLast?_concat]
  rw [h1, descents_concat, h2]
  simp [rollover]

/-- C3: the year recorded at the `k`-th processed date line is the initial
year plus the number of month decreases seen so far; hence with months in
non-decreasing order the year never changes, and at each month decrease it
increments by exactly one and stays incremented. -/
theorem claim_C3 (base_year : Nat) (text : String) :
    (∀ k, k < (parse_raw base_year text).2.2.length →
      ((parse_raw base_year text).2.2.getD k (0, 0)).2 =
        base_year +
          descents (((parse_raw base_year text).2.2.map Prod.fst).take (k + 1))) ∧
    (List.Chain' (· ≤ ·) ((parse_raw base_year text).2.2.map Prod.fst) →
      ∀ e ∈ (parse_raw base_year text).2.2, e.2 = base_year) ∧
    (∀ k, k + 1 < (parse_raw base_year text).2.2.length →
      ((parse_raw base_year text).2.2.getD (k + 1) (0, 0)).2 =
        ((parse_raw base_year text).2.2.getD k (0, 0)).2 +
          (if ((parse_raw base_year text).2.2.getD (k + 1) (0, 0)).1 <
              ((parse_raw base_year text).2.2.getD k (0, 0)).1 then 1 else 0)) := by
  have hok := parse_raw_traceOk base_year text
  set tr := (parse_raw base_year text).2.2 with htr
  refine ⟨hok, ?_, ?_⟩
  · intro hch e he
    obtain ⟨k, hk, hek⟩ := List.getElem_of_mem he
    have h1 := hok k hk
    rw [List.getD_eq_getElem tr (0, 0) hk, hek] at h1
    rw [h1, descents_zero_of_chain _ (hch.take (k + 1))]
    omega
  · intro k hk
    have h1 := hok k (by omega)
    have h2 := hok (k + 1) hk
    have hmlen : k + 1 < (tr.map Prod.fst).length := by
      rw [List.length_map]
      exact hk
    have hstep := descents_take_succ (tr.map Prod.fst) k hmlen
    have hm1 : (tr.map Prod.fst).getD (k + 1) 0 = (tr.getD (k + 1) (0, 0)).1 := by
      rw [List.getD_eq_getElem _ 0 hmlen, List.getElem_map,
        List.getD_eq_getElem tr (0, 0) hk]
    have hm0 : (tr.map Prod.fst).getD k 0 = (tr.getD k (0, 0)).1 := by
      have hk' : k < (tr.map Prod.fst).length := by omega
      rw [List.getD_eq_getElem _ 0 hk', List.getElem_map,
        List.getD_eq_getElem tr (0, 0) (by omega)]
    rw [hm1, hm0] at hstep
    rw [h1, h2, hstep]
    omega

/-- C3 witness: on `20/12` then `5/1` (month drops 12 → 1) the second date
line's year is the first's plus one, and it equals the initial year plus the
single descent. -/
theorem claim_C3_witness :
    (((parse_raw 2025 "20/12\n5/1").2.2.getD 1 (0, 0)).2 =
      2025 + descents (((parse_raw 2025 "20/12\n5/1").2.2.map Prod.fst).take 2)) ∧
    (((parse_raw 2025 "20/12\n5/1").2.2.getD 1 (0, 0)).2 =
      ((parse_raw 2025 "20/12\n5/1").2.2.getD 0 (0, 0)).2 +
        (if ((parse_raw 2025 "20/12\n5/1").2.2.getD 1 (0, 0)).1 <
            ((parse_raw 2025 "20/12\n5/1").2.2.getD 0 (0, 0)).1 then 1 else 0)) :=
  ⟨(claim_C3 2025 "20/12\n5/1").1 1 (by decide),
   (claim_C3 2025 "20/12\n5/1").2.2 0 (by decide)⟩

/-- C8: the parser is total — the model needs no more fuel than the line
count, so it always returns a `(schedule, warnings)` pair; an input with no
date-pattern line (in particular the empty input) yields the empty schedule
with no warnings. -/
theorem claim_C8 :
    (∀ base_year : Nat, parse_input base_year "" = ([], [])) ∧
    (∀ (base_year : Nat) (text : String),
      (∀ l ∈ linesOf text, dateMatch (pyStrip l) = none) →
      parse_input base_year text = ([], [])) ∧
    (∀ (lines : List String) (fuel i year : Nat) (lastMonth : Option Nat)
      (curKey : Option String) (sched : List (String × List Event))
      (warns : List String) (trace : List (Nat × Nat)),
      lines.length - i ≤ fuel →
      parseLoop lines fuel i year lastMonth curKey sched warns trace =
        parseLoop lines (lines.length - i) i year lastMonth curKey
          sched warns trace) := by
  refine ⟨fun _ => rfl, ?_, ?_⟩
  · intro base_year text hnd
    unfold parse_input parse_raw
    rw [parseLoop_no_dates (linesOf text) hnd]
    rfl
  · intro lines fuel i year lastMonth curKey sched warns trace hfuel
    exact parseLoop_fuel_irrelevant lines fuel (lines.length - i) i year lastMonth
      curKey sched warns trace hfuel (Nat.le_refl _)

/-- C8 witness: a date-less input parses to the empty schedule without
warnings, and surplus fuel is irrelevant on a concrete two-line input. -/
theorem claim_C8_witness :
    parse_input 2025 "Δευτέρα\n21:30\nCOSMOTE" = ([], []) ∧
    parseLoop ["1/12", "21:30"] 99 0 2025 none none [] [] [] =
      parseLoop ["1/12", "21:30"] 2 0 2025 none none [] [] [] :=
  ⟨claim_C8.2.1 2025 "Δευτέρα\n21:30\nCOSMOTE" (by decide),
   claim_C8.2.2 ["1/12", "21:30"] 99 0 2025 none none [] [] [] (by decide)⟩

/-- A failed triple lookahead means fewer than three non-blank lines
remain after `i`. -/
theorem nextThree_none_count (lines : List String) (i : Nat)
    (h : nextThree lines i = none) :
    (lines.drop (i + 1)).countP nonblank < 3 := by
  unfold nextThree at h
  cases h1 : next_nonempty lines (i + 1) with
  | none =>
    have c1 := (next_nonempty_count lines (i + 1)).1 h1
    omega
  | some n1 =>
    obtain ⟨k1, t1⟩ := n1
    simp only [h1] at h
    have c1 := (next_nonempty_count lines (i + 1)).2 k1 t1 h1
    cases h2 : next_nonempty lines (k1 + 1) with
    | none =>
      have c2 := (next_nonempty_count lines (k1 + 1)).1 h2
      omega
    | some n2 =>
      obtain ⟨k2, t2⟩ := n2
      simp only [h2] at h
      have c2 := (next_nonempty_count lines (k1 + 1)).2 k2 t2 h2
      cases h3 : next_nonempty lines (k2 + 1) with
      | none =>
        have c3 := (next_nonempty_count lines (k2 + 1)).1 h3
        omega
      | some n3 =>
        simp only [h3] at h
        exact Option.noConfusion h

/-- C4: a time line recognised under a current date with fewer than three
non-blank lines left appends exactly one warning naming the time and the
date, adds no event anywhere (the schedule is passed on unchanged), and the
cursor advances past the time line only. -/
theorem claim_C4 (lines : List String) (fuel i year : Nat) (lastMonth : Option Nat)
    (dk : String) (sched : List (String × List Event)) (warns : List String)
    (trace : List (Nat × Nat)) (hi : i < lines.length)
    (hdm : dateMatch (pyStrip (lines.getD i "")) = none)
    (ht : timeMatch (pyStrip (lines.getD i "")) = true)
    (hcount : (lines.drop (i + 1)).countP nonblank < 3) :
    parseLoop lines (fuel + 1) i year lastMonth (some dk) sched warns trace =
      parseLoop lines fuel (i + 1) year lastMonth (some dk) sched
        (warns ++
          ["Λείπουν γραμμές μετά την ώρα " ++
            normalize_spaces (pyStrip (lines.getD i "")) ++ " στη μέρα " ++ dk])
        trace :=
  parseLoop_missing_step lines fuel i year lastMonth dk sched warns trace hi hdm ht
    (nextThree_of_count_lt lines i hcount)

/-- C4 witness: `21:30` as the second-to-last line with one line after it —
one warning, no event, cursor moves one line. -/
theorem claim_C4_witness :
    parseLoop ["1/12", "21:30", "COSMOTE"] 2 1 2025 (some 12) (some "2025-12-01")
      [("2025-12-01", [])] [] [(12, 2025)] =
    parseLoop ["1/12", "21:30", "COSMOTE"] 1 2 2025 (some 12) (some "2025-12-01")
      [("2025-12-01", [])]
      ["Λείπουν γραμμές μετά την ώρα 21:30 στη μέρα 2025-12-01"] [(12, 2025)] := by
  have h := claim_C4 ["1/12", "21:30", "COSMOTE"] 1 1 2025 (some 12) "2025-12-01"
    [("2025-12-01", [])] [] [(12, 2025)] (by decide) (by decide) (by decide) (by decide)
  simpa using h

/-- C5: a syntactically valid date line whose components do not form a real
calendar date appends exactly one warning quoting the line, creates no
schedule entry, clears the current date (so, per the second conjunct, any
later time line is skipped with no effect while no date is set), and the
scan continues at the next line. -/
theorem claim_C5 :
    (∀ (lines : List String) (fuel i year dd mm : Nat) (lastMonth : Option Nat)
      (curKey : Option String) (sched : List (String × List Event))
      (warns : List String) (trace : List (Nat × Nat)),
      i < lines.length →
      dateMatch (pyStrip (lines.getD i "")) = some (dd, mm) →
      isValidDate (if rollover lastMonth mm then year + 1 else year) mm dd = false →
      parseLoop lines (fuel + 1) i year lastMonth curKey sched warns trace =
        parseLoop lines fuel (i + 1)
          (if rollover lastMonth mm then year + 1 else year) (some mm) none sched
          (warns ++
            ["Αδυναμία δημιουργίας ημερομηνίας από: " ++ pyStrip (lines.getD i "")])
          (trace ++ [(mm, if rollover lastMonth mm then year + 1 else year)])) ∧
    (∀ (lines : List String) (fuel j year : Nat) (lastMonth : Option Nat)
      (sched : List (String × List Event)) (warns : List String)
      (trace : List (Nat × Nat)),
      j < lines.length →
      dateMatch (pyStrip (lines.getD j "")) = none →
      timeMatch (pyStrip (lines.getD j "")) = true →
      parseLoop lines (fuel + 1) j year lastMonth none sched warns trace =
        parseLoop lines fuel (j + 1) year lastMonth none sched warns trace) := by
  constructor
  · intro lines fuel i year dd mm lastMonth curKey sched warns trace hi hdm hv
    rw [parseLoop_date_step lines fuel i year dd mm _ lastMonth curKey sched warns
      trace hi hdm rfl, if_neg]
    rw [hv]
    exact Bool.noConfusion
  · intro lines fuel j year lastMonth sched warns trace hj hdm ht
    have hb : ¬ pyStrip (lines.getD j "") = "" := by
      intro he
      rw [he] at ht
      exact Bool.noConfusion ht
    exact parseLoop_skip_nodate_step lines fuel j year lastMonth sched warns trace
      hj hb hdm

/-- C5 witness: `31/2` warns, leaves the schedule empty, clears the date;
a following `21:30` line with no date set is skipped without effect. -/
theorem claim_C5_witness :
    (parseLoop ["31/2", "21:30"] 1 0 2025 none none [] [] [] =
      parseLoop ["31/2", "21:30"] 0 1 2025 (some 2) none []
        ["Αδυναμία δημιουργίας ημερομηνίας από: 31/2"] [(2, 2025)]) ∧
    (parseLoop ["31/2", "21:30"] 1 1 2025 (some 2) none [] [] [] =
      parseLoop ["31/2", "21:30"] 0 2 2025 (some 2) none [] [] []) := by
  constructor
  · have h := claim_C5.1 ["31/2", "21:30"] 0 0 2025 31 2 none none [] [] []
      (by decide) (by decide) (by decide)
    simpa using h
  · exact claim_C5.2 ["31/2", "21:30"] 0 1 2025 (some 2) [] [] []
      (by decide) (by decide) (by decide)

/-- C9: once a time line is recognised under a current date and at least
three non-blank lines follow, those three lines are consumed as channel,
match and competition unconditionally — no hypothesis restricts their shape,
so lines matching the date or time pattern are absorbed into the event's
fields, never opening a new day or a new event block; the cursor jumps past
the third line. -/
theorem claim_C9 (lines : List String) (fuel i year : Nat) (lastMonth : Option Nat)
    (dk : String) (sched : List (String × List Event)) (warns : List String)
    (trace : List (Nat × Nat)) (hi : i < lines.length)
    (hdm : dateMatch (pyStrip (lines.getD i "")) = none)
    (ht : timeMatch (pyStrip (lines.getD i "")) = true)
    (hcount : 3 ≤ (lines.drop (i + 1)).countP nonblank) :
    ∃ j1 s1 j2 s2 j3 s3 i' sport,
      nextThree lines i = some ((j1, s1), (j2, s2), (j3, s3)) ∧
      j3 < i' ∧
      parseLoop lines (fuel + 1) i year lastMonth (some dk) sched warns trace =
        parseLoop lines fuel i' year lastMonth (some dk)
          (schedAppend sched dk
            ⟨dk, normalize_spaces (pyStrip (lines.getD i "")), normalize_spaces s1,
              normalize_spaces s2, normalize_spaces s3, sport⟩)
          warns trace := by
  cases h3 : nextThree lines i with
  | none =>
    have := nextThree_none_count lines i h3
    omega
  | some t =>
    obtain ⟨⟨j1, s1⟩, ⟨j2, s2⟩, ⟨j3, s3⟩⟩ := t
    refine ⟨j1, s1, j2, s2, j3, s3, ?_⟩
    cases h4 : next_nonempty lines (j3 + 1) with
    | none =>
      exact ⟨j3 + 1, infer_sport (normalize_spaces s1) (normalize_spaces s2)
          (normalize_spaces s3), rfl, by omega,
        parseLoop_event_nofourth_step lines fuel i year lastMonth dk sched warns
          trace j1 j2 j3 s1 s2 s3 hi hdm ht h3 h4⟩
    | some n4 =>
      obtain ⟨j4, s4⟩ := n4
      have hb4 := next_nonempty_bounds lines (j3 + 1) j4 s4 h4
      by_cases hs : (SPORT_LINE_SET.contains (normalize_spaces s4) &&
          !timeMatch (normalize_spaces s4) &&
          (dateMatch (normalize_spaces s4)).isNone) = true
      · have hs1 : SPORT_LINE_SET.contains (normalize_spaces s4) = true := by
          simp only [Bool.and_eq_true] at hs
          exact hs.1.1
        have hs2 : timeMatch (normalize_spaces s4) = false := by
          simp only [Bool.and_eq_true, Bool.not_eq_true'] at hs
          exact hs.1.2
        have hs3 : dateMatch (normalize_spaces s4) = none := by
          simp only [Bool.and_eq_true, Option.isNone_iff_eq_none] at hs
          exact hs.2
        exact ⟨j4 + 1, normalize_spaces s4, rfl, by omega,
          parseLoop_event_explicit_step lines fuel i year lastMonth dk sched warns
            trace j1 j2 j3 j4 s1 s2 s3 s4 hi hdm ht h3 h4 hs1 hs2 hs3⟩
      · simp only [Bool.not_eq_true] at hs
        exact ⟨j3 + 1, infer_sport (normalize_spaces s1) (normalize_spaces s2)
            (normalize_spaces s3), rfl, by omega,
          parseLoop_event_infer_step lines fuel i year lastMonth dk sched warns
            trace j1 j2 j3 j4 s1 s2 s3 s4 hi hdm ht h3 h4 hs⟩

/-- C9 witness: after `21:30`, the lines `14:30` (a time line) and `2/12`
(a date line) are absorbed as channel and match fields. -/
theorem claim_C9_witness :
    ∃ j1 s1 j2 s2 j3 s3 i' sport,
      nextThree ["1/12", "21:30", "14:30", "2/12", "La Liga"] 1 =
        some ((j1, s1), (j2, s2), (j3, s3)) ∧
      j3 < i' ∧
      parseLoop ["1/12", "21:30", "14:30", "2/12", "La Liga"] 4 1 2025 (some 12)
          (some "2025-12-01") [("2025-12-01", [])] [] [(12, 2025)] =
        parseLoop ["1/12", "21:30", "14:30", "2/12", "La Liga"] 3 i' 2025 (some 12)
          (some "2025-12-01")
          (schedAppend [("2025-12-01", [])] "2025-12-01"
            ⟨"2025-12-01",
              normalize_spaces (pyStrip
                ((["1/12", "21:30", "14:30", "2/12", "La Liga"] : List String).getD 1 "")),
              normalize_spaces s1, normalize_spaces s2, normalize_spaces s3, sport⟩)
          [] [(12, 2025)] :=
  claim_C9 ["1/12", "21:30", "14:30", "2/12", "La Liga"] 3 1 2025 (some 12)
    "2025-12-01" [("2025-12-01", [])] [] [(12, 2025)]
    (by decide) (by decide) (by decide) (by decide)

/-- C6: when the next non-blank line after the competition, once
whitespace-normalised, is one of the fixed category labels and is neither a
time nor a date line, it becomes the event's category and is consumed and
the classifier is not consulted; otherwise the line is left for the next
iteration and the category is the classifier's result on the three fields. -/
theorem claim_C6 (lines : List String) (fuel i year : Nat) (lastMonth : Option Nat)
    (dk : String) (sched : List (String × List Event)) (warns : List String)
    (trace : List (Nat × Nat)) (j1 j2 j3 j4 : Nat) (s1 s2 s3 s4 : String)
    (hi : i < lines.length)
    (hdm : dateMatch (pyStrip (lines.getD i "")) = none)
    (ht : timeMatch (pyStrip (lines.getD i "")) = true)
    (h3 : nextThree lines i = some ((j1, s1), (j2, s2), (j3, s3)))
    (h4 : next_nonempty lines (j3 + 1) = some (j4, s4)) :
    (SPORT_LINE_SET.contains (normalize_spaces s4) = true →
      timeMatch (normalize_spaces s4) = false →
      dateMatch (normalize_spaces s4) = none →
      parseLoop lines (fuel + 1) i year lastMonth (some dk) sched warns trace =
        parseLoop lines fuel (j4 + 1) year lastMonth (some dk)
          (schedAppend sched dk
            ⟨dk, normalize_spaces (pyStrip (lines.getD i "")), normalize_spaces s1,
              normalize_spaces s2, normalize_spaces s3, normalize_spaces s4⟩)
          warns trace) ∧
    ((SPORT_LINE_SET.contains (normalize_spaces s4) &&
        !timeMatch (normalize_spaces s4) &&
        (dateMatch (normalize_spaces s4)).isNone) = false →
      parseLoop lines (fuel + 1) i year lastMonth (some dk) sched warns trace =
        parseLoop lines fuel (j3 + 1) year lastMonth (some dk)
          (schedAppend sched dk
            ⟨dk, normalize_spaces (pyStrip (lines.getD i "")), normalize_spaces s1,
              normalize_spaces s2, normalize_spaces s3,
              infer_sport (normalize_spaces s1) (normalize_spaces s2)
                (normalize_spaces s3)⟩)
          warns trace) :=
  ⟨fun hs1 hs2 hs3 =>
    parseLoop_event_explicit_step lines fuel i year lastMonth dk sched warns trace
      j1 j2 j3 j4 s1 s2 s3 s4 hi hdm ht h3 h4 hs1 hs2 hs3,
   fun hs =>
    parseLoop_event_infer_step lines fuel i year lastMonth dk sched warns trace
      j1 j2 j3 j4 s1 s2 s3 s4 hi hdm ht h3 h4 hs⟩

/-- C6 witness: an explicit `Μπάσκετ` line overrides the classifier (which
would say `Ποδόσφαιρο` for `Super League`) and is consumed; a non-label
fourth line (`22:00`) is left unconsumed and the classifier decides. -/
theorem claim_C6_witness :
    (parseLoop ["1/12", "21:30", "EPT", "PAOK - AEK", "Super League", "Μπάσκετ"] 5 1
        2025 (some 12) (some "2025-12-01") [("2025-12-01", [])] [] [(12, 2025)] =
      parseLoop ["1/12", "21:30", "EPT", "PAOK - AEK", "Super League", "Μπάσκετ"] 4 6
        2025 (some 12) (some "2025-12-01")
        (schedAppend [("2025-12-01", [])] "2025-12-01"
          ⟨"2025-12-01",
            normalize_spaces (pyStrip
              ((["1/12", "21:30", "EPT", "PAOK - AEK", "Super League", "Μπάσκετ"] :
                List String).getD 1 "")),
            normalize_spaces "EPT", normalize_spaces "PAOK - AEK",
            normalize_spaces "Super League", normalize_spaces "Μπάσκετ"⟩)
        [] [(12, 2025)]) ∧
    (parseLoop ["1/12", "21:30", "EPT", "PAOK - AEK", "Super League", "22:00"] 5 1
        2025 (some 12) (some "2025-12-01") [("2025-12-01", [])] [] [(12, 2025)] =
      parseLoop ["1/12", "21:30", "EPT", "PAOK - AEK", "Super League", "22:00"] 4 5
        2025 (some 12) (some "2025-12-01")
        (schedAppend [("2025-12-01", [])] "2025-12-01"
          ⟨"2025-12-01",
            normalize_spaces (pyStrip
              ((["1/12", "21:30", "EPT", "PAOK - AEK", "Super League", "22:00"] :
                List String).getD 1 "")),
            normalize_spaces "EPT", normalize_spaces "PAOK - AEK",
            normalize_spaces "Super League",
            infer_sport (normalize_spaces "EPT") (normalize_spaces "PAOK - AEK")
              (normalize_spaces "Super League")⟩)
        [] [(12, 2025)]) :=
  ⟨(claim_C6 ["1/12", "21:30", "EPT", "PAOK - AEK", "Super League", "Μπάσκετ"] 4 1
      2025 (some 12) "2025-12-01" [("2025-12-01", [])] [] [(12, 2025)] 2 3 4 5
      "EPT" "PAOK - AEK" "Super League" "Μπάσκετ"
      (by decide) (by decide) (by decide) (by decide) (by decide)).1
    (by decide) (by decide) (by decide),
   (claim_C6 ["1/12", "21:30", "EPT", "PAOK - AEK", "Super League", "22:00"] 4 1
      2025 (some 12) "2025-12-01" [("2025-12-01", [])] [] [(12, 2025)] 2 3 4 5
      "EPT" "PAOK - AEK" "Super League" "22:00"
      (by decide) (by decide) (by decide) (by decide) (by decide)).2
    (by decide)⟩

/-- C7: the five-line Example-1 input yields one day, December 1 of the
inference year, in `YYYY-12-01` form (stated for the years `1000`..`9999`,
where `strftime` zero-padding is four digits — the inference year starts
from the current Athens year, well inside this range), holding exactly the
one event with category `Ποδόσφαιρο` (from the `La Liga` keyword), and no
warnings. -/
theorem claim_C7 (y : Nat) (hy1 : 1000 ≤ y) (hy2 : y ≤ 9999) :
    parse_input y "1/12\n21:30\nCOSMOTE SPORT 1\nReal Madrid - Barcelona\nLa Liga" =
      ([(formatDateKey y 12 1,
         [⟨formatDateKey y 12 1, "21:30", "COSMOTE SPORT 1",
           "Real Madrid - Barcelona", "La Liga", "Ποδόσφαιρο"⟩])], []) := by
  have hlines :
      linesOf "1/12\n21:30\nCOSMOTE SPORT 1\nReal Madrid - Barcelona\nLa Liga" =
        ["1/12", "21:30", "COSMOTE SPORT 1", "Real Madrid - Barcelona", "La Liga"] := by
    decide
  have hvalid : isValidDate y 12 1 = true := by
    simp only [isValidDate, daysInMonth, Bool.and_eq_true, decide_eq_true_eq]
    refine ⟨⟨⟨⟨⟨by omega, hy2⟩, by omega⟩, by omega⟩, by omega⟩, ?_⟩
    norm_num
  have hyr : y = if rollover none 12 then y + 1 else y := (if_neg (by decide)).symm
  have e1 : parseLoop
        ["1/12", "21:30", "COSMOTE SPORT 1", "Real Madrid - Barcelona", "La Liga"]
        5 0 y none none [] [] [] =
      parseLoop
        ["1/12", "21:30", "COSMOTE SPORT 1", "Real Madrid - Barcelona", "La Liga"]
        4 1 y (some 12) (some (formatDateKey y 12 1)) [(formatDateKey y 12 1, [])]
        [] [(12, y)] := by
    have h := parseLoop_date_step
      ["1/12", "21:30", "COSMOTE SPORT 1", "Real Madrid - Barcelona", "La Liga"]
      4 0 y 1 12 y none none [] [] [] (by decide) (by decide) hyr
    rw [if_pos hvalid] at h
    simpa [setdefault] using h
  have e2 : parseLoop
        ["1/12", "21:30", "COSMOTE SPORT 1", "Real Madrid - Barcelona", "La Liga"]
        4 1 y (some 12) (some (formatDateKey y 12 1)) [(formatDateKey y 12 1, [])]
        [] [(12, y)] =
      parseLoop
        ["1/12", "21:30", "COSMOTE SPORT 1", "Real Madrid - Barcelona", "La Liga"]
        3 5 y (some 12) (some (formatDateKey y 12 1))
        [(formatDateKey y 12 1,
          [⟨formatDateKey y 12 1, "21:30", "COSMOTE SPORT 1",
            "Real Madrid - Barcelona", "La Liga", "Ποδόσφαιρο"⟩])]
        [] [(12, y)] := by
    have h := parseLoop_event_nofourth_step
      ["1/12", "21:30", "COSMOTE SPORT 1", "Real Madrid - Barcelona", "La Liga"]
      3 1 y (some 12) (formatDateKey y 12 1) [(formatDateKey y 12 1, [])] []
      [(12, y)] 2 3 4 "COSMOTE SPORT 1" "Real Madrid - Barcelona" "La Liga"
      (by decide) (by decide) (by decide) (by decide) (by decide)
    have hn1 : normalize_spaces (pyStrip
        ((["1/12", "21:30", "COSMOTE SPORT 1", "Real Madrid - Barcelona",
          "La Liga"] : List String).getD 1 "")) = "21:30" := by decide
    have hn2 : normalize_spaces "COSMOTE SPORT 1" = "COSMOTE SPORT 1" := by decide
    have hn3 : normalize_spaces "Real Madrid - Barcelona" =
        "Real Madrid - Barcelona" := by decide
    have hn4 : normalize_spaces "La Liga" = "La Liga" := by decide
    have hinf : infer_sport "COSMOTE SPORT 1" "Real Madrid - Barcelona" "La Liga" =
        "Ποδόσφαιρο" := by decide
    rw [hn1, hn2, hn3, hn4, hinf] at h
    have hsa : schedAppend [(formatDateKey y 12 1, [])] (formatDateKey y 12 1)
        ⟨formatDateKey y 12 1, "21:30", "COSMOTE SPORT 1",
          "Real Madrid - Barcelona", "La Liga", "Ποδόσφαιρο"⟩ =
        [(formatDateKey y 12 1,
          [⟨formatDateKey y 12 1, "21:30", "COSMOTE SPORT 1",
            "Real Madrid - Barcelona", "La Liga", "Ποδόσφαιρο"⟩])] := by
      simp [schedAppend]
    rw [hsa] at h
    exact h
  have e3 : parseLoop
        ["1/12", "21:30", "COSMOTE SPORT 1", "Real Madrid - Barcelona", "La Liga"]
        3 5 y (some 12) (some (formatDateKey y 12 1))
        [(formatDateKey y 12 1,
          [⟨formatDateKey y 12 1, "21:30", "COSMOTE SPORT 1",
            "Real Madrid - Barcelona", "La Liga", "Ποδόσφαιρο"⟩])]
        [] [(12, y)] =
      ([(formatDateKey y 12 1,
         [⟨formatDateKey y 12 1, "21:30", "COSMOTE SPORT 1",
           "Real Madrid - Barcelona", "La Liga", "Ποδόσφαιρο"⟩])],
       [], [(12, y)]) :=
    parseLoop_exit _ 3 5 y (some 12) _ _ [] [(12, y)] (by decide)
  unfold parse_input parse_raw
  rw [hlines]
  rw [show (["1/12", "21:30", "COSMOTE SPORT 1", "Real Madrid - Barcelona",
    "La Liga"] : List String).length = 5 from rfl]
  rw [e1, e2, e3]
  rfl

/-- C7 witness: the same parse at the concrete year 2025 produces the
literal key `2025-12-01`. -/
theorem claim_C7_witness :
    parse_input 2025
        "1/12\n21:30\nCOSMOTE SPORT 1\nReal Madrid - Barcelona\nLa Liga" =
      ([("2025-12-01",
         [⟨"2025-12-01", "21:30", "COSMOTE SPORT 1",
           "Real Madrid - Barcelona", "La Liga", "Ποδόσφαιρο"⟩])], []) := by
  have h := claim_C7 2025 (by decide) (by decide)
  rw [show formatDateKey 2025 12 1 = "2025-12-01" from by decide] at h
  exact h

end Sportaki
